import Mathlib

/-!
# Shallow embedding of the CS500 mid-exam organizational model (Q2.py / Q3.py)

The repository implements an in-memory organizational model: `Employee`,
`Building`, `Company` (Q2.py, repeated verbatim in Q3.py) and
`ConstructionCompany` (Q3.py).  This file embeds those classes and their
methods as Lean definitions and proves the specification claims about them.

Modelling conventions:
* Python `int` ids are modelled as `Int`; the `float` incomes and areas are
  modelled as `Int` as well — every claim under consideration only uses their
  linear order and their rendering to a newline-free token, both of which are
  preserved by this choice.
* Mutation is modelled functionally: a method that mutates `self` returns the
  updated object; a method that can `raise ValueError` returns
  `Except PyError _`.
* Python's `dict` (which preserves insertion order) is modelled as an
  insertion-ordered association list.
* Python double-underscore private attributes are modelled as structure
  fields of the same name; `@property` accessors become plain definitions.
-/

/-- Embeds `BuildingType` enum from Q2.py/Q3.py. -/
inductive BuildingType where
  | WAREHOUSE
  | DISTRIBUTION_CENTER
  | FLEX_SPACE
  | MANUFACTURING_BUILDING
deriving DecidableEq, Repr

/-- The `.name` attribute of a `BuildingType` enum member (the member's
identifier as a string), as used by the `Building.building_type` property and
in `Building.display`. -/
def BuildingType.name : BuildingType → String
  | .WAREHOUSE => "WAREHOUSE"
  | .DISTRIBUTION_CENTER => "DISTRIBUTION_CENTER"
  | .FLEX_SPACE => "FLEX_SPACE"
  | .MANUFACTURING_BUILDING => "MANUFACTURING_BUILDING"

/-- Embeds `ConstructionCompanyType` enum from Q3.py. -/
inductive ConstructionCompanyType where
  | GENERAL_CONTRACTOR
  | SUBCONTRACTOR
  | CONSTRUCTION_MANAGER
deriving DecidableEq, Repr

/-- The `.name` attribute of a `ConstructionCompanyType` member, used in
`ConstructionCompany.display`. -/
def ConstructionCompanyType.name : ConstructionCompanyType → String
  | .GENERAL_CONTRACTOR => "GENERAL_CONTRACTOR"
  | .SUBCONTRACTOR => "SUBCONTRACTOR"
  | .CONSTRUCTION_MANAGER => "CONSTRUCTION_MANAGER"

/-- The two `ValueError` messages raised by the code, as structured data:
`f"Employee with ID {employee_id} not found"` and
`f"No building of type {building_type} found"`. -/
inductive PyError where
  | employeeNotFound (employee_id : Int)
  | buildingNotFound (building_type : BuildingType)
deriving DecidableEq, Repr

/-- Embeds `class Employee` (Q2.py lines 20-39 / Q3.py lines 27-46): a value holder
with private attributes `__employee_id`, `__employee_name`,
`__annual_income`. -/
structure Employee where
  __employee_id : Int
  __employee_name : String
  __annual_income : Int
deriving DecidableEq, Repr

/-- Embeds `@property employee_id`. -/
def Employee.employee_id (e : Employee) : Int := e.__employee_id

/-- Embeds `@property employee_name`. -/
def Employee.employee_name (e : Employee) : String := e.__employee_name

/-- Embeds `@property annual_income`. -/
def Employee.annual_income (e : Employee) : Int := e.__annual_income

/-- Embeds `Employee.display`:
`f"ID: {id}, Name: {name}, Income: ${income}"`. -/
def Employee.display (e : Employee) : String :=
  "ID: " ++ toString e.__employee_id ++ ", Name: " ++ e.__employee_name
    ++ ", Income: $" ++ toString e.__annual_income

/-- Python's `"\n".join(l)`: concatenate the strings of `l` with a single
newline between consecutive elements. -/
def joinNL : List String → String
  | [] => ""
  | [s] => s
  | s :: t :: rest => s ++ "\n" ++ joinNL (t :: rest)

/-- Embeds `class Building` (Q2.py lines 41-82 / Q3.py lines 48-90):
`__building_name`, `__area`, `__building_type` (a `BuildingType` member) and
the mutable employee list `__employees`. -/
structure Building where
  __building_name : String
  __area : Int
  __building_type : BuildingType
  __employees : List Employee
deriving DecidableEq, Repr

/-- Embeds `@property building_name`. -/
def Building.building_name (b : Building) : String := b.__building_name

/-- Embeds `@property area`. -/
def Building.area (b : Building) : Int := b.__area

/-- Embeds `@property building_type` — note: it returns `self.__building_type.name`,
a `str`, not the `BuildingType` member itself. -/
def Building.building_type (b : Building) : String := b.__building_type.name

/-- Embeds `@property employees`. -/
def Building.employees (b : Building) : List Employee := b.__employees

/-- Embeds `Building.display`: a header with name/area/type-name, then the line
`Employees:`, then `"\n".join` of the employees' display strings. -/
def Building.display (b : Building) : String :=
  let employee_info := joinNL (b.__employees.map Employee.display)
  "Building Name: " ++ b.__building_name ++ ", Area: " ++ toString b.__area
    ++ ", Type: " ++ b.__building_type.name ++ "\nEmployees:\n" ++ employee_info

/-- Embeds `Building.add_employee`: `self.__employees.append(employee)`. -/
def Building.add_employee (b : Building) (employee : Employee) : Building :=
  { b with __employees := b.__employees ++ [employee] }

/-- Embeds `Building.remove_employee`:
`self.__employees = [e for e in self.__employees if e.employee_name != employee_name]`. -/
def Building.remove_employee (b : Building) (employee_name : String) : Building :=
  { b with __employees :=
      b.__employees.filter (fun e => e.employee_name != employee_name) }

/-- Embeds `sorted(xs, key=lambda e: e.annual_income, reverse=True)`: Python's
`sorted` is a stable sort; with `reverse=True` it orders by key descending
and still keeps elements with equal keys in their original relative order.
`List.mergeSort` is a stable sort that puts `a` before `b` when `le a b`,
preferring the earlier element on ties, so the Boolean order
`b.annual_income ≤ a.annual_income` reproduces Python's behaviour exactly. -/
def sortedByIncomeDesc (xs : List Employee) : List Employee :=
  xs.mergeSort (fun a b => decide (b.annual_income ≤ a.annual_income))

/-- Embeds `Building.get_top_five_employees`: stable sort by income descending, then
`[:5]`. -/
def Building.get_top_five_employees (b : Building) : List Employee :=
  (sortedByIncomeDesc b.__employees).take 5

/-- Embeds `Building.get_employee`: linear scan in list order; return the first
employee whose `employee_id` matches, else
`raise ValueError(f"Employee with ID {employee_id} not found")`. -/
def Building.get_employee (b : Building) (employee_id : Int) :
    Except PyError Employee :=
  match b.__employees.find? (fun employee => employee.employee_id == employee_id) with
  | some employee => .ok employee
  | none => .error (.employeeNotFound employee_id)

/-- Embeds `class Company` (Q2.py lines 84-115 / Q3.py lines 92-123): structurally a
`Building` without area/category; `__company_name` and `__employees`. -/
structure Company where
  __company_name : String
  __employees : List Employee
deriving DecidableEq, Repr

/-- Embeds `@property company_name`. -/
def Company.company_name (c : Company) : String := c.__company_name

/-- Embeds `@property employees`. -/
def Company.employees (c : Company) : List Employee := c.__employees

/-- Embeds `Company.display`: header with the company name, then `Employees:`, then
`"\n".join` of the employees' display strings. -/
def Company.display (c : Company) : String :=
  let employee_info := joinNL (c.__employees.map Employee.display)
  "Company Name: " ++ c.__company_name ++ "\nEmployees:\n" ++ employee_info

/-- Embeds `Company.add_employee`: `self.__employees.append(employee)`. -/
def Company.add_employee (c : Company) (employee : Employee) : Company :=
  { c with __employees := c.__employees ++ [employee] }

/-- Embeds `Company.remove_employee`: same list comprehension as
`Building.remove_employee`. -/
def Company.remove_employee (c : Company) (employee_name : String) : Company :=
  { c with __employees :=
      c.__employees.filter (fun e => e.employee_name != employee_name) }

/-- Embeds `Company.get_top_five_employees`: identical to the `Building` method. -/
def Company.get_top_five_employees (c : Company) : List Employee :=
  (sortedByIncomeDesc c.__employees).take 5

/-- Embeds `Company.get_employee`: identical to the `Building` method. -/
def Company.get_employee (c : Company) (employee_id : Int) :
    Except PyError Employee :=
  match c.__employees.find? (fun employee => employee.employee_id == employee_id) with
  | some employee => .ok employee
  | none => .error (.employeeNotFound employee_id)

/-- Python `==` between a `str` (the value of the `building_type` property)
and a `BuildingType` enum member: `str.__eq__` returns `NotImplemented` for a
non-string argument and `Enum.__eq__` is identity-based, so the comparison is
`False` for every pair of operands. -/
def pyEqStrBuildingType (_ : String) (_ : BuildingType) : Bool := false

/-- Embeds `class ConstructionCompany` (Q3.py lines 125-163): `__company_name`,
`__category` and the building list `__buildings` (initially empty). -/
structure ConstructionCompany where
  __company_name : String
  __category : ConstructionCompanyType
  __buildings : List Building
deriving DecidableEq, Repr

/-- Embeds `ConstructionCompany.add_building`: `self.__buildings.append(building)`. -/
def ConstructionCompany.add_building (c : ConstructionCompany) (building : Building) :
    ConstructionCompany :=
  { c with __buildings := c.__buildings ++ [building] }

/-- Embeds `@property employees` (Q3.py lines 158-163): start from an empty list and
`extend` it with each owned building's employee list, in building-list order;
recomputed on every access. -/
def ConstructionCompany.employees (c : ConstructionCompany) : List Employee :=
  c.__buildings.foldl (fun all_employees building => all_employees ++ building.employees) []

/-- Embeds `ConstructionCompany.get_building_by_type` (Q3.py lines 134-141): fold the
building list into an insertion-ordered dictionary.  The key is
`building.building_type` — the *name string* of the category, because that is
what the property returns.  `key not in dict` is the membership test on the
existing keys; a missing key is inserted at the end with a singleton list,
an existing key has the building appended to its list. -/
def ConstructionCompany.get_building_by_type (c : ConstructionCompany) :
    List (String × List Building) :=
  c.__buildings.foldl
    (fun buildings_by_type building =>
      if buildings_by_type.any (fun kv => kv.1 == building.building_type) then
        buildings_by_type.map (fun kv =>
          if kv.1 == building.building_type then (kv.1, kv.2 ++ [building]) else kv)
      else
        buildings_by_type ++ [(building.building_type, [building])])
    []

/-- The `for building in self.__buildings` loop of
`assign_employee_to_building`: find the first building for which
`building.building_type == building_type` (a `str`-vs-enum comparison) holds,
append the employee to it and stop; `none` when the loop falls through. -/
def assignScan (employee : Employee) (building_type : BuildingType) :
    List Building → Option (List Building)
  | [] => none
  | building :: rest =>
    if pyEqStrBuildingType building.building_type building_type then
      some (building.add_employee employee :: rest)
    else
      match assignScan employee building_type rest with
      | some rest' => some (building :: rest')
      | none => none

/-- Embeds `ConstructionCompany.assign_employee_to_building` (Q3.py lines 143-151):
first phase looks the employee up by id in the aggregated `self.employees`
with `next(..., None)` (first match in list order); `if not employee` is the
truthiness test, and an `Employee` instance is always truthy, so it fires
exactly when the lookup produced `None` and raises
`ValueError(f"Employee with ID {employee_id} not found")`.  Second phase
scans the buildings for `building.building_type == building_type` and appends
the employee to the first hit; if the loop falls through it raises
`ValueError(f"No building of type {building_type} found")`. -/
def ConstructionCompany.assign_employee_to_building (c : ConstructionCompany)
    (employee_id : Int) (building_type : BuildingType) :
    Except PyError ConstructionCompany :=
  match c.employees.find? (fun emp => emp.employee_id == employee_id) with
  | none => .error (.employeeNotFound employee_id)
  | some employee =>
    match assignScan employee building_type c.__buildings with
    | some bs => .ok { c with __buildings := bs }
    | none => .error (.buildingNotFound building_type)

/-- Embeds `ConstructionCompany.display`: header with company name and category
name, then `Buildings:`, then `"\n".join` of the buildings' display strings. -/
def ConstructionCompany.display (c : ConstructionCompany) : String :=
  let building_info := joinNL (c.__buildings.map Building.display)
  "Construction Company Name: " ++ c.__company_name ++ ", Type: "
    ++ c.__category.name ++ "\nBuildings:\n" ++ building_info

/-- Number of newline characters in a string. -/
def countNL (s : String) : Nat := s.data.count '\n'

/-- Number of lines of a (non-newline-terminated) string: one more than the
number of newline characters it contains. -/
def lineCount (s : String) : Nat := countNL s + 1

/-- First-seen order of the keys of a Python `dict` built by inserting the
given keys left to right: each key appears once, at the position of its first
occurrence. -/
def firstSeen (keys : List String) : List String :=
  keys.foldl (fun acc k => if k ∈ acc then acc else acc ++ [k]) []

/-! ## Shared helper lemmas -/

lemma count_filter_name_ne (xs : List Employee) (name : String) (e : Employee) :
    (xs.filter (fun x => x.employee_name != name)).count e
      = if e.employee_name = name then 0 else xs.count e := by
  split
  next h =>
    refine List.count_eq_zero.mpr ?_
    intro hmem
    have := List.of_mem_filter hmem
    simp [h] at this
  next h =>
    exact List.count_filter (by simp [h])

lemma filter_name_ne_eq_self (xs : List Employee) (name : String)
    (h : ∀ e ∈ xs, e.employee_name ≠ name) :
    xs.filter (fun x => x.employee_name != name) = xs :=
  List.filter_eq_self.mpr (fun a ha => by simpa using h a ha)

lemma get_employee_list_ok (xs : List Employee) (employee_id : Int) (e : Employee) :
    xs.find? (fun x => x.employee_id == employee_id) = some e
      ↔ e.employee_id = employee_id
        ∧ ∃ l₁ l₂, xs = l₁ ++ e :: l₂ ∧ ∀ x ∈ l₁, x.employee_id ≠ employee_id := by
  rw [List.find?_eq_some]
  simp

/-! ## C4 -/

/-- C4: for every Building or Company, `get_employee(id)` returns the first
employee in current list order whose `employee_id` equals `id` when one
exists (there are earlier-in-list elements only with non-matching ids), and
fails with `ValueError` carrying the id (modelled `PyError.employeeNotFound id`)
when no employee with that id is present. -/
theorem C4_get_employee_first_match_or_not_found :
    ∀ (employee_id : Int),
      (∀ (b : Building) (e : Employee),
          (b.get_employee employee_id = .ok e
            ↔ e.employee_id = employee_id
              ∧ ∃ l₁ l₂, b.employees = l₁ ++ e :: l₂
                  ∧ ∀ x ∈ l₁, x.employee_id ≠ employee_id)
          ∧ (b.get_employee employee_id = .error (.employeeNotFound employee_id)
            ↔ ∀ x ∈ b.employees, x.employee_id ≠ employee_id))
      ∧ (∀ (c : Company) (e : Employee),
          (c.get_employee employee_id = .ok e
            ↔ e.employee_id = employee_id
              ∧ ∃ l₁ l₂, c.employees = l₁ ++ e :: l₂
                  ∧ ∀ x ∈ l₁, x.employee_id ≠ employee_id)
          ∧ (c.get_employee employee_id = .error (.employeeNotFound employee_id)
            ↔ ∀ x ∈ c.employees, x.employee_id ≠ employee_id)) := by
  intro employee_id
  constructor
  · intro b e
    constructor
    · simp only [Building.get_employee, Building.employees]
      rw [← get_employee_list_ok b.__employees employee_id e]
      cases h : b.__employees.find? (fun x => x.employee_id == employee_id) <;> simp [h]
    · simp only [Building.get_employee, Building.employees]
      cases h : b.__employees.find? (fun x => x.employee_id == employee_id) with
      | none =>
        rw [List.find?_eq_none] at h
        exact iff_of_true rfl (fun x hx => by simpa using h x hx)
      | some a =>
        have hpa := List.find?_some h
        have hma := List.mem_of_find?_eq_some h
        constructor
        · intro hcontra; simp at hcontra
        · intro hall; exact absurd (by simpa using hpa) (hall a hma)
  · intro c e
    constructor
    · simp only [Company.get_employee, Company.employees]
      rw [← get_employee_list_ok c.__employees employee_id e]
      cases h : c.__employees.find? (fun x => x.employee_id == employee_id) <;> simp [h]
    · simp only [Company.get_employee, Company.employees]
      cases h : c.__employees.find? (fun x => x.employee_id == employee_id) with
      | none =>
        rw [List.find?_eq_none] at h
        exact iff_of_true rfl (fun x hx => by simpa using h x hx)
      | some a =>
        have hpa := List.find?_some h
        have hma := List.mem_of_find?_eq_some h
        constructor
        · intro hcontra; simp at hcontra
        · intro hall; exact absurd (by simpa using hpa) (hall a hma)

/-- Witness for C4, on the driver's data: in the Q2 building, `get_employee 3`
returns Carl Hopper, who is preceded only by non-3 ids, and `get_employee 6`
fails with the NotFound error carrying 6. -/
theorem C4_witness :
    (Building.mk "Warehouse" 2500 .WAREHOUSE
        [⟨1, "Green Lee", 75000⟩, ⟨2, "Steven Smith", 80000⟩, ⟨3, "Carl Hopper", 55000⟩,
         ⟨4, "Ken Yung", 60000⟩, ⟨5, "Jenny May", 90000⟩]).get_employee 3
        = .ok ⟨3, "Carl Hopper", 55000⟩
    ∧ (Company.mk "SFBU Corp"
        [⟨1, "Green Lee", 75000⟩, ⟨2, "Steven Smith", 80000⟩, ⟨3, "Carl Hopper", 55000⟩,
         ⟨4, "Ken Yung", 60000⟩, ⟨5, "Jenny May", 90000⟩]).get_employee 6
        = .error (.employeeNotFound 6) := by
  constructor
  · exact ((C4_get_employee_first_match_or_not_found 3).1 _ _).1.mpr
      (by refine ⟨rfl, [⟨1, "Green Lee", 75000⟩, ⟨2, "Steven Smith", 80000⟩],
            [⟨4, "Ken Yung", 60000⟩, ⟨5, "Jenny May", 90000⟩], rfl, ?_⟩
          decide)
  · exact ((C4_get_employee_first_match_or_not_found 6).2 _ ⟨0, "", 0⟩).2.mpr (by decide)

/-! ## C5 -/

/-- C5: for every Building or Company and every string `name`,
`remove_employee(name)` removes exactly the employees whose `employee_name`
equals `name` (the count of any employee with that name drops to zero, the
count of any other employee is unchanged), keeps the remaining employees in
their relative order (the result is a sublist of the original list), and when
no employee matches the object is left entirely unchanged and no error is
raised (the operation is total). -/
theorem C5_remove_employee_exact_matches :
    ∀ (name : String),
      (∀ b : Building,
        (∀ e : Employee, ((b.remove_employee name).employees).count e
            = if e.employee_name = name then 0 else (b.employees).count e)
        ∧ List.Sublist ((b.remove_employee name).employees) b.employees
        ∧ ((∀ e ∈ b.employees, e.employee_name ≠ name) → b.remove_employee name = b))
      ∧ (∀ c : Company,
        (∀ e : Employee, ((c.remove_employee name).employees).count e
            = if e.employee_name = name then 0 else (c.employees).count e)
        ∧ List.Sublist ((c.remove_employee name).employees) c.employees
        ∧ ((∀ e ∈ c.employees, e.employee_name ≠ name) → c.remove_employee name = c)) := by
  intro name
  constructor
  · intro b
    refine ⟨fun e => count_filter_name_ne b.__employees name e, List.filter_sublist _, fun h => ?_⟩
    have heq := filter_name_ne_eq_self b.__employees name h
    cases b
    simp only [Building.remove_employee] at heq ⊢
    rw [heq]
  · intro c
    refine ⟨fun e => count_filter_name_ne c.__employees name e, List.filter_sublist _, fun h => ?_⟩
    have heq := filter_name_ne_eq_self c.__employees name h
    cases c
    simp only [Company.remove_employee] at heq ⊢
    rw [heq]

/-- Witness for C5: removing "Green Lee" from the driver's building removes
exactly that employee, and removing an absent name is a no-op. -/
theorem C5_witness :
    ((Building.mk "Warehouse" 2500 .WAREHOUSE
        [⟨1, "Green Lee", 75000⟩, ⟨2, "Steven Smith", 80000⟩]).remove_employee
        "Green Lee").employees.count ⟨1, "Green Lee", 75000⟩ = 0
    ∧ (Company.mk "SFBU Corp" [⟨1, "Green Lee", 75000⟩]).remove_employee "Nobody"
        = Company.mk "SFBU Corp" [⟨1, "Green Lee", 75000⟩] := by
  constructor
  · have := ((C5_remove_employee_exact_matches "Green Lee").1
      (Building.mk "Warehouse" 2500 .WAREHOUSE
        [⟨1, "Green Lee", 75000⟩, ⟨2, "Steven Smith", 80000⟩])).1 (⟨1, "Green Lee", 75000⟩ : Employee)
    simpa using this
  · exact ((C5_remove_employee_exact_matches "Nobody").2
      (Company.mk "SFBU Corp" [⟨1, "Green Lee", 75000⟩])).2.2 (by decide)

/-! ## C6 -/

/-- C6: for every Building or Company and every string `name`, calling
`remove_employee(name)` twice in succession yields the same object (and in
particular the same employee list) as calling it once. -/
theorem C6_remove_employee_idempotent :
    ∀ (name : String),
      (∀ b : Building,
          (b.remove_employee name).remove_employee name = b.remove_employee name)
      ∧ (∀ c : Company,
          (c.remove_employee name).remove_employee name = c.remove_employee name) := by
  intro name
  constructor
  · intro b
    simp [Building.remove_employee, List.filter_filter]
  · intro c
    simp [Company.remove_employee, List.filter_filter]

/-- Witness for C6 at a concrete building and company. -/
theorem C6_witness :
    ((Building.mk "W" 1 .WAREHOUSE [⟨1, "A", 10⟩, ⟨2, "B", 20⟩]).remove_employee
        "A").remove_employee "A"
      = (Building.mk "W" 1 .WAREHOUSE [⟨1, "A", 10⟩, ⟨2, "B", 20⟩]).remove_employee "A"
    ∧ ((Company.mk "C" [⟨1, "A", 10⟩]).remove_employee "A").remove_employee "A"
      = (Company.mk "C" [⟨1, "A", 10⟩]).remove_employee "A" :=
  ⟨(C6_remove_employee_idempotent "A").1 _, (C6_remove_employee_idempotent "A").2 _⟩

/-! ## C8 -/

lemma foldl_append_eq_flatten (f : Building → List Employee) :
    ∀ (bs : List Building) (acc : List Employee),
      bs.foldl (fun a b => a ++ f b) acc = acc ++ (bs.map f).flatten
  | [], acc => by simp
  | b :: rest, acc => by
    simp only [List.foldl_cons, List.map_cons, List.flatten_cons]
    rw [foldl_append_eq_flatten f rest (acc ++ f b)]
    simp [List.append_assoc]

/-- C8: for every ConstructionCompany, the derived `employees` property is
the concatenation of every owned building's employee list, in building-list
order then per-building order; and because it is recomputed on each access
rather than cached, it equals the aggregate of the *current* building list
also after a mutation such as `add_building`. -/
theorem C8_employees_is_recomputed_concatenation :
    (∀ c : ConstructionCompany,
        c.employees = (c.__buildings.map Building.employees).flatten)
    ∧ (∀ (c : ConstructionCompany) (b : Building),
        (c.add_building b).employees = c.employees ++ b.employees) := by
  constructor
  · intro c
    simpa using foldl_append_eq_flatten Building.employees c.__buildings []
  · intro c b
    simp only [ConstructionCompany.employees, ConstructionCompany.add_building]
    rw [foldl_append_eq_flatten Building.employees (c.__buildings ++ [b]) [],
      foldl_append_eq_flatten Building.employees c.__buildings []]
    simp

/-- Witness for C8 at a concrete two-building company. -/
theorem C8_witness :
    (ConstructionCompany.mk "BuildItRight Inc." .GENERAL_CONTRACTOR
        [Building.mk "W" 10 .WAREHOUSE [⟨1, "A", 10⟩],
         Building.mk "F" 20 .FLEX_SPACE [⟨2, "B", 20⟩]]).employees
      = [⟨1, "A", 10⟩, ⟨2, "B", 20⟩] := by
  have := C8_employees_is_recomputed_concatenation.1
    (ConstructionCompany.mk "BuildItRight Inc." .GENERAL_CONTRACTOR
      [Building.mk "W" 10 .WAREHOUSE [⟨1, "A", 10⟩],
       Building.mk "F" 20 .FLEX_SPACE [⟨2, "B", 20⟩]])
  simpa [Building.employees] using this

/-! ## C2 -/

/-- C2: for every ConstructionCompany whose aggregated employees contain no
employee with the given id, `assign_employee_to_building(id, t)` fails with
the NotFound error carrying that id, regardless of the building list. -/
theorem C2_assign_unknown_employee_fails_not_found :
    ∀ (c : ConstructionCompany) (employee_id : Int) (building_type : BuildingType),
      (∀ e ∈ c.employees, e.employee_id ≠ employee_id) →
      c.assign_employee_to_building employee_id building_type
        = .error (.employeeNotFound employee_id) := by
  intro c employee_id building_type h
  unfold ConstructionCompany.assign_employee_to_building
  have hnone : c.employees.find? (fun emp => emp.employee_id == employee_id) = none :=
    List.find?_eq_none.mpr (fun x hx => by simpa using h x hx)
  rw [hnone]

/-- Witness for C2: `assign_employee_to_building(999, WAREHOUSE)` on the
driver's company (employees with ids 1..5 in a Warehouse building) fails with
NotFound(999). -/
theorem C2_witness :
    (ConstructionCompany.mk "BuildItRight Inc." .GENERAL_CONTRACTOR
        [Building.mk "Warehouse" 2500 .WAREHOUSE
          [⟨1, "Green Lee", 75000⟩, ⟨2, "Steven Smith", 80000⟩, ⟨3, "Carl Hopper", 55000⟩,
           ⟨4, "Ken Yung", 60000⟩, ⟨5, "Jenny May", 90000⟩]]).assign_employee_to_building
        999 .WAREHOUSE
      = .error (.employeeNotFound 999) :=
  C2_assign_unknown_employee_fails_not_found _ 999 .WAREHOUSE (by decide)

/-! ## C1 -/

/-- C1 is falsified by the code: the building scan compares
`building.building_type` — a `str`, because the property returns
`self.__building_type.name` — with the `BuildingType` enum member passed as
argument, and a `str` is never `==`-equal to an enum member, so the scan can
never find a matching building and the call raises
`ValueError("No building of type ... found")` even when the employee exists
and a building of the requested category is present.  This theorem evaluates
the code at the claim's own scenario (the driver's data):
`assign_employee_to_building(3, WAREHOUSE)` with employee 3 present and a
Warehouse building present raises NotFound for the category instead of
succeeding. -/
theorem C1_assign_raises_despite_matching_building :
    (ConstructionCompany.mk "BuildItRight Inc." .GENERAL_CONTRACTOR
        [Building.mk "Warehouse" 2500 .WAREHOUSE
          [⟨2, "Steven Smith", 80000⟩, ⟨3, "Carl Hopper", 55000⟩,
           ⟨4, "Ken Yung", 60000⟩, ⟨5, "Jenny May", 90000⟩]]).assign_employee_to_building
        3 .WAREHOUSE
      = .error (.buildingNotFound .WAREHOUSE) := by
  rfl

/-! ## C10 -/

lemma assignScan_eq_none (employee : Employee) (building_type : BuildingType) :
    ∀ bs : List Building, assignScan employee building_type bs = none
  | [] => rfl
  | b :: rest => by
    simp [assignScan, pyEqStrBuildingType, assignScan_eq_none employee building_type rest]

/-! ## C7: grouping machinery -/

lemma firstSeen_loop_mem : ∀ (ks acc : List String) (x : String),
    (x ∈ ks.foldl (fun a k => if k ∈ a then a else a ++ [k]) acc ↔ x ∈ acc ∨ x ∈ ks)
  | [], acc, x => by simp
  | k :: rest, acc, x => by
    simp only [List.foldl_cons]
    by_cases hk : k ∈ acc
    · rw [if_pos hk, firstSeen_loop_mem rest acc x]
      simp only [List.mem_cons]
      constructor
      · rintro (h | h)
        · exact Or.inl h
        · exact Or.inr (Or.inr h)
      · rintro (h | h | h)
        · exact Or.inl h
        · exact Or.inl (h ▸ hk)
        · exact Or.inr h
    · rw [if_neg hk, firstSeen_loop_mem rest (acc ++ [k]) x]
      simp only [List.mem_append, List.mem_singleton, List.mem_cons]
      tauto

lemma firstSeen_mem (ks : List String) (x : String) :
    x ∈ firstSeen ks ↔ x ∈ ks := by
  unfold firstSeen
  simpa using firstSeen_loop_mem ks [] x

lemma firstSeen_loop_nodup : ∀ (ks acc : List String), acc.Nodup →
    (ks.foldl (fun a k => if k ∈ a then a else a ++ [k]) acc).Nodup
  | [], _, h => h
  | k :: rest, acc, h => by
    simp only [List.foldl_cons]
    by_cases hk : k ∈ acc
    · rw [if_pos hk]
      exact firstSeen_loop_nodup rest acc h
    · rw [if_neg hk]
      refine firstSeen_loop_nodup rest (acc ++ [k]) ?_
      simp [List.nodup_append, h, hk]

lemma firstSeen_nodup (ks : List String) : (firstSeen ks).Nodup :=
  firstSeen_loop_nodup ks [] List.nodup_nil

lemma firstSeen_append_singleton (ks : List String) (k : String) :
    firstSeen (ks ++ [k])
      = if k ∈ firstSeen ks then firstSeen ks else firstSeen ks ++ [k] := by
  unfold firstSeen
  rw [List.foldl_append, List.foldl_cons, List.foldl_nil]

/-- Characterization of the `get_building_by_type` fold: the result maps every
first-seen key (name string of a category) to the sublist of buildings whose
`building_type` property equals that key, in original order. -/
lemma gbbt_loop : ∀ bs : List Building,
    bs.foldl
      (fun buildings_by_type building =>
        if buildings_by_type.any (fun kv => kv.1 == building.building_type) then
          buildings_by_type.map (fun kv =>
            if kv.1 == building.building_type then (kv.1, kv.2 ++ [building]) else kv)
        else
          buildings_by_type ++ [(building.building_type, [building])])
      []
    = (firstSeen (bs.map Building.building_type)).map
        (fun k => (k, bs.filter (fun b => b.building_type == k))) := by
  intro bs
  induction bs using List.reverseRecOn with
  | nil => simp [firstSeen]
  | append_singleton bs b ih =>
    rw [List.foldl_append, List.foldl_cons, List.foldl_nil, ih, List.map_append]
    simp only [List.map_cons, List.map_nil]
    rw [firstSeen_append_singleton]
    by_cases hmem : b.building_type ∈ firstSeen (bs.map Building.building_type)
    · rw [if_pos hmem]
      have hc : ((firstSeen (bs.map Building.building_type)).map
          (fun k => (k, bs.filter (fun x => x.building_type == k)))).any
            (fun kv => kv.1 == b.building_type) = true := by
        refine List.any_eq_true.mpr ?_
        exact ⟨(b.building_type, bs.filter (fun x => x.building_type == b.building_type)),
          List.mem_map_of_mem _ hmem, by simp⟩
      rw [if_pos hc, List.map_map]
      apply List.map_congr_left
      intro k _
      by_cases hk : k = b.building_type
      · subst hk
        simp [List.filter_append, List.filter_cons]
      · simp [Function.comp, hk, Ne.symm hk, List.filter_append, List.filter_cons]
    · rw [if_neg hmem]
      have hc : ((firstSeen (bs.map Building.building_type)).map
          (fun k => (k, bs.filter (fun x => x.building_type == k)))).any
            (fun kv => kv.1 == b.building_type) = false := by
        refine List.any_eq_false.mpr ?_
        intro kv hkv
        obtain ⟨k, hkmem, rfl⟩ := List.mem_map.mp hkv
        simp only [beq_iff_eq]
        intro hkeq
        exact hmem (hkeq ▸ hkmem)
      rw [if_neg (by simp [hc]), List.map_append]
      congr 1
      · apply List.map_congr_left
        intro k hkmem
        have hk : k ≠ b.building_type := fun hkeq => hmem (hkeq ▸ hkmem)
        simp [hk, Ne.symm hk, List.filter_append, List.filter_cons]
      · have hnil : bs.filter (fun x => x.building_type == b.building_type) = [] := by
          refine List.filter_eq_nil_iff.mpr ?_
          intro x hx
          simp only [beq_iff_eq]
          intro hxeq
          exact hmem ((firstSeen_mem _ _).mpr (hxeq ▸ List.mem_map_of_mem Building.building_type hx))
        simp [List.filter_append, List.filter_cons, hnil]

lemma gbbt_eq (c : ConstructionCompany) :
    c.get_building_by_type
      = (firstSeen (c.__buildings.map Building.building_type)).map
          (fun k => (k, c.__buildings.filter (fun b => b.building_type == k))) :=
  gbbt_loop c.__buildings

lemma sum_single_key : ∀ (keys : List String) (k₀ : String) (f : String → Nat),
    keys.Nodup → k₀ ∈ keys → (∀ k, k ≠ k₀ → f k = 0) →
    (keys.map f).sum = f k₀
  | [], _, _, _, h, _ => absurd h (List.not_mem_nil _)
  | k :: rest, k₀, f, hnd, hmem, hz => by
    rcases List.mem_cons.mp hmem with h | h
    · subst h
      have hzrest : ∀ x ∈ rest, f x = 0 := fun x hx =>
        hz x (fun hxk => (List.nodup_cons.mp hnd).1 (hxk ▸ hx))
      have : (rest.map f).sum = 0 := by
        refine List.sum_eq_zero ?_
        intro x hx
        obtain ⟨y, hy, rfl⟩ := List.mem_map.mp hx
        exact hzrest y hy
      simp [this]
    · have hk : k ≠ k₀ := fun hkk => (List.nodup_cons.mp hnd).1 (hkk ▸ h)
      rw [List.map_cons, List.sum_cons, hz k hk,
        sum_single_key rest k₀ f (List.nodup_cons.mp hnd).2 h hz]
      simp

lemma count_filter_building_type (bs : List Building) (b : Building) (k : String) :
    (bs.filter (fun x => x.building_type == k)).count b
      = if b.building_type = k then bs.count b else 0 := by
  by_cases hk : b.building_type = k
  · rw [if_pos hk]
    exact List.count_filter (by simp [hk])
  · rw [if_neg hk]
    refine List.count_eq_zero.mpr ?_
    intro hmem
    exact hk (by simpa using List.of_mem_filter hmem)

lemma flatten_groups_perm (bs : List Building) :
    List.Perm
      ((firstSeen (bs.map Building.building_type)).map
        (fun k => bs.filter (fun b => b.building_type == k))).flatten
      bs := by
  rw [List.perm_iff_count]
  intro b
  rw [List.count_flatten, List.map_map]
  by_cases hb : b ∈ bs
  · have hkey : b.building_type ∈ firstSeen (bs.map Building.building_type) :=
      (firstSeen_mem _ _).mpr (List.mem_map_of_mem Building.building_type hb)
    have hsum := sum_single_key (firstSeen (bs.map Building.building_type)) b.building_type
      (fun k => (bs.filter (fun x => x.building_type == k)).count b)
      (firstSeen_nodup _) hkey
      (fun k hk => by
        show (bs.filter (fun x => x.building_type == k)).count b = 0
        rw [count_filter_building_type]
        exact if_neg (fun hbk => hk hbk.symm))
    rw [show ((List.count b ∘ fun k => bs.filter (fun x => x.building_type == k)))
        = (fun k => (bs.filter (fun x => x.building_type == k)).count b) from rfl, hsum]
    show (bs.filter (fun x => x.building_type == b.building_type)).count b = List.count b bs
    rw [count_filter_building_type]
    simp
  · have hz : b ∉ bs → bs.count b = 0 := List.count_eq_zero.mpr
    rw [hz hb]
    refine List.sum_eq_zero ?_
    intro x hx
    obtain ⟨k, _, rfl⟩ := List.mem_map.mp hx
    simp only [Function.comp]
    exact Nat.le_zero.mp ((hz hb) ▸ (List.filter_sublist bs).count_le b)

/-! ## C7 -/

/-- C7: `get_building_by_type()` groups the owned buildings by their
`building_type` (the name string of their category — an injective image of
the category, see C10): each group's list is exactly the sublist of owned
buildings carrying that key, in original building-list order; every building
sits in the group keyed by its own category; the groups together are a
permutation (multiset equality) of the owned building list; and the group
keys appear in first-seen insertion order over the building list, without
duplicates. -/
theorem C7_get_building_by_type_groups :
    ∀ c : ConstructionCompany,
      (∀ kv ∈ c.get_building_by_type,
          kv.2 = c.__buildings.filter (fun b => b.building_type == kv.1))
      ∧ (∀ kv ∈ c.get_building_by_type, ∀ b ∈ kv.2, b.building_type = kv.1)
      ∧ List.Perm ((c.get_building_by_type.map Prod.snd).flatten) c.__buildings
      ∧ c.get_building_by_type.map Prod.fst
          = firstSeen (c.__buildings.map Building.building_type)
      ∧ (c.get_building_by_type.map Prod.fst).Nodup := by
  intro c
  rw [gbbt_eq c]
  refine ⟨?_, ?_, ?_, ?_, ?_⟩
  · intro kv hkv
    obtain ⟨k, _, rfl⟩ := List.mem_map.mp hkv
    rfl
  · intro kv hkv b hb
    obtain ⟨k, _, rfl⟩ := List.mem_map.mp hkv
    simpa using List.of_mem_filter hb
  · rw [List.map_map]
    exact flatten_groups_perm c.__buildings
  · rw [List.map_map]
    rw [show (Prod.fst ∘ fun k => ((k, c.__buildings.filter (fun b => b.building_type == k))
        : String × List Building)) = id from rfl, List.map_id]
  · rw [List.map_map]
    rw [show (Prod.fst ∘ fun k => ((k, c.__buildings.filter (fun b => b.building_type == k))
        : String × List Building)) = id from rfl, List.map_id]
    exact firstSeen_nodup (c.__buildings.map Building.building_type)

/-- Witness for C7 at a concrete company with three buildings in two
categories. -/
theorem C7_witness :
    (∀ kv ∈ (ConstructionCompany.mk "B" .GENERAL_CONTRACTOR
        [Building.mk "W1" 1 .WAREHOUSE [], Building.mk "F1" 2 .FLEX_SPACE [],
         Building.mk "W2" 3 .WAREHOUSE []]).get_building_by_type,
        ∀ b ∈ kv.2, b.building_type = kv.1)
    ∧ (ConstructionCompany.mk "B" .GENERAL_CONTRACTOR
        [Building.mk "W1" 1 .WAREHOUSE [], Building.mk "F1" 2 .FLEX_SPACE [],
         Building.mk "W2" 3 .WAREHOUSE []]).get_building_by_type.map Prod.fst
      = firstSeen ([Building.mk "W1" 1 .WAREHOUSE [], Building.mk "F1" 2 .FLEX_SPACE [],
         Building.mk "W2" 3 .WAREHOUSE []].map Building.building_type) :=
  ⟨(C7_get_building_by_type_groups _).2.1, (C7_get_building_by_type_groups _).2.2.2.1⟩

/-! ## C10 -/

/-- C10 (implicit claim, confirmed): the `building_type` property of a
building constructed with category `t` returns the string `t.name`, not the
`BuildingType` value; consequently the equality test inside
`assign_employee_to_building` compares a `str` with a `BuildingType` member
— which is always `False` in Python, so the call can never succeed — and the
keys of the mapping returned by `get_building_by_type()` are exactly these
name strings of the owned buildings' categories. -/
theorem C10_building_type_is_name_string :
    (∀ (building_name : String) (area : Int) (t : BuildingType) (es : List Employee),
        (Building.mk building_name area t es).building_type = t.name)
    ∧ (∀ (s : String) (t : BuildingType), pyEqStrBuildingType s t = false)
    ∧ (∀ (c : ConstructionCompany) (employee_id : Int) (building_type : BuildingType)
          (c' : ConstructionCompany),
        c.assign_employee_to_building employee_id building_type ≠ .ok c')
    ∧ (∀ c : ConstructionCompany, ∀ kv ∈ c.get_building_by_type,
        ∃ b ∈ c.__buildings, kv.1 = b.__building_type.name) := by
  refine ⟨fun _ _ _ _ => rfl, fun _ _ => rfl, ?_, ?_⟩
  · intro c employee_id building_type c'
    unfold ConstructionCompany.assign_employee_to_building
    cases h : c.employees.find? (fun emp => emp.employee_id == employee_id) with
    | none => simp
    | some employee =>
      show (match assignScan employee building_type c.__buildings with
        | some bs => Except.ok { c with __buildings := bs }
        | none => Except.error (PyError.buildingNotFound building_type)) ≠ Except.ok c'
      rw [assignScan_eq_none employee building_type c.__buildings]
      simp
  · intro c kv hkv
    rw [gbbt_eq c] at hkv
    obtain ⟨k, hk, rfl⟩ := List.mem_map.mp hkv
    obtain ⟨b, hb, rfl⟩ := List.mem_map.mp ((firstSeen_mem _ _).mp hk)
    exact ⟨b, hb, rfl⟩

/-- Witness for C10, instantiating each conjunct at the driver's data. -/
theorem C10_witness :
    (Building.mk "Warehouse" 2500 .WAREHOUSE []).building_type
        = BuildingType.name .WAREHOUSE
    ∧ pyEqStrBuildingType "WAREHOUSE" .WAREHOUSE = false
    ∧ (ConstructionCompany.mk "B" .GENERAL_CONTRACTOR
        [Building.mk "W" 1 .WAREHOUSE [⟨3, "Carl Hopper", 55000⟩]]).assign_employee_to_building
        3 .WAREHOUSE
      ≠ .ok (ConstructionCompany.mk "B" .GENERAL_CONTRACTOR
        [Building.mk "W" 1 .WAREHOUSE [⟨3, "Carl Hopper", 55000⟩, ⟨3, "Carl Hopper", 55000⟩]])
    ∧ ∃ b ∈ [Building.mk "W" 1 .WAREHOUSE []], ("WAREHOUSE", [Building.mk "W" 1 .WAREHOUSE []]).1
        = b.__building_type.name := by
  refine ⟨C10_building_type_is_name_string.1 "Warehouse" 2500 .WAREHOUSE [],
    C10_building_type_is_name_string.2.1 "WAREHOUSE" .WAREHOUSE,
    C10_building_type_is_name_string.2.2.1 _ 3 .WAREHOUSE _,
    C10_building_type_is_name_string.2.2.2
      (ConstructionCompany.mk "B" .GENERAL_CONTRACTOR [Building.mk "W" 1 .WAREHOUSE []])
      ("WAREHOUSE", [Building.mk "W" 1 .WAREHOUSE []]) (by decide)⟩

/-! ## C3 -/

lemma incomeLe_trans : ∀ a b c : Employee,
    decide (b.annual_income ≤ a.annual_income)
    → decide (c.annual_income ≤ b.annual_income)
    → decide (c.annual_income ≤ a.annual_income) := by
  intro a b c hab hbc
  simp only [decide_eq_true_eq] at *
  omega

lemma incomeLe_total : ∀ a b : Employee,
    decide (b.annual_income ≤ a.annual_income)
      || decide (a.annual_income ≤ b.annual_income) := by
  intro a b
  simp only [Bool.or_eq_true, decide_eq_true_eq]
  omega

/-- Stability of the Python sort: for every income value `v`, filtering the
sorted list down to the employees with income `v` gives back exactly the
employees of income `v` of the input, in their original order. -/
lemma sortedByIncomeDesc_filter (xs : List Employee) (v : Int) :
    (sortedByIncomeDesc xs).filter (fun e => e.annual_income == v)
      = xs.filter (fun e => e.annual_income == v) := by
  have hsub : List.Sublist (xs.filter (fun e => e.annual_income == v)) (sortedByIncomeDesc xs) := by
    refine List.sublist_mergeSort incomeLe_trans incomeLe_total ?_ (List.filter_sublist xs)
    refine List.pairwise_of_forall_mem_list ?_
    intro a ha b hb
    have ha' := List.of_mem_filter ha
    have hb' := List.of_mem_filter hb
    simp only [beq_iff_eq] at ha' hb'
    simp [ha', hb']
  have hsub2 : List.Sublist (xs.filter (fun e => e.annual_income == v))
      ((sortedByIncomeDesc xs).filter (fun e => e.annual_income == v)) := by
    have h := hsub.filter (fun e => e.annual_income == v)
    rwa [List.filter_filter, show (fun a : Employee =>
        (a.annual_income == v) && (a.annual_income == v)) = (fun a : Employee =>
        a.annual_income == v) from funext (fun a => Bool.and_self _)] at h
  have hperm : List.Perm ((sortedByIncomeDesc xs).filter (fun e => e.annual_income == v))
      (xs.filter (fun e => e.annual_income == v)) :=
    (List.mergeSort_perm xs _).filter _
  exact (hsub2.eq_of_length hperm.length_eq.symm).symm

/-- C3: for every Building or Company with employee list `xs`,
`get_top_five_employees()` returns a list of length `min 5 |xs|`, sorted by
`annual_income` descending, whose elements are drawn (with multiplicity, by
identity) from `xs`, and income ties are broken by the employees' original
relative order: for each income value, the returned employees of that income
are an initial segment, in order, of the employees of that income in `xs`. -/
theorem C3_get_top_five_employees_sorted_stable :
    (∀ b : Building,
        b.get_top_five_employees.length = min 5 b.employees.length
        ∧ b.get_top_five_employees.Pairwise
            (fun x y => y.annual_income ≤ x.annual_income)
        ∧ List.Subperm b.get_top_five_employees b.employees
        ∧ ∀ v : Int, b.get_top_five_employees.filter (fun e => e.annual_income == v)
            <+: b.employees.filter (fun e => e.annual_income == v))
    ∧ (∀ c : Company,
        c.get_top_five_employees.length = min 5 c.employees.length
        ∧ c.get_top_five_employees.Pairwise
            (fun x y => y.annual_income ≤ x.annual_income)
        ∧ List.Subperm c.get_top_five_employees c.employees
        ∧ ∀ v : Int, c.get_top_five_employees.filter (fun e => e.annual_income == v)
            <+: c.employees.filter (fun e => e.annual_income == v)) := by
  have key : ∀ xs : List Employee,
      ((sortedByIncomeDesc xs).take 5).length = min 5 xs.length
      ∧ ((sortedByIncomeDesc xs).take 5).Pairwise
          (fun x y => y.annual_income ≤ x.annual_income)
      ∧ List.Subperm ((sortedByIncomeDesc xs).take 5) xs
      ∧ ∀ v : Int, ((sortedByIncomeDesc xs).take 5).filter (fun e => e.annual_income == v)
          <+: xs.filter (fun e => e.annual_income == v) := by
    intro xs
    refine ⟨?_, ?_, ?_, ?_⟩
    · rw [List.length_take, sortedByIncomeDesc, List.length_mergeSort]
    · have hs := List.sorted_mergeSort incomeLe_trans incomeLe_total xs
      have hp : (sortedByIncomeDesc xs).Pairwise
          (fun x y => y.annual_income ≤ x.annual_income) :=
        hs.imp (fun h => by simpa using h)
      exact hp.sublist (List.take_sublist 5 _)
    · exact ((List.take_sublist 5 _).subperm).trans (List.mergeSort_perm xs _).subperm
    · intro v
      have hpfx : (sortedByIncomeDesc xs).take 5 <+: sortedByIncomeDesc xs :=
        List.take_prefix 5 _
      have := hpfx.filter (fun e => e.annual_income == v)
      rwa [sortedByIncomeDesc_filter xs v] at this
  constructor
  · intro b
    exact key b.__employees
  · intro c
    exact key c.__employees

unseal List.merge List.mergeSort in
/-- Witness for C3 on the spec's own scenario: after removing Green Lee, the
top five of the driver's building are Jenny May, Steven Smith, Ken Yung,
Carl Hopper, in that order. -/
theorem C3_witness :
    ((Building.mk "Warehouse" 2500 .WAREHOUSE
        [⟨1, "Green Lee", 75000⟩, ⟨2, "Steven Smith", 80000⟩, ⟨3, "Carl Hopper", 55000⟩,
         ⟨4, "Ken Yung", 60000⟩, ⟨5, "Jenny May", 90000⟩]).remove_employee
        "Green Lee").get_top_five_employees
      = [⟨5, "Jenny May", 90000⟩, ⟨2, "Steven Smith", 80000⟩,
         ⟨4, "Ken Yung", 60000⟩, ⟨3, "Carl Hopper", 55000⟩]
    ∧ ((Building.mk "Warehouse" 2500 .WAREHOUSE
        [⟨1, "Green Lee", 75000⟩, ⟨2, "Steven Smith", 80000⟩, ⟨3, "Carl Hopper", 55000⟩,
         ⟨4, "Ken Yung", 60000⟩, ⟨5, "Jenny May", 90000⟩]).remove_employee
        "Green Lee").get_top_five_employees.length
      = min 5 ((Building.mk "Warehouse" 2500 .WAREHOUSE
        [⟨1, "Green Lee", 75000⟩, ⟨2, "Steven Smith", 80000⟩, ⟨3, "Carl Hopper", 55000⟩,
         ⟨4, "Ken Yung", 60000⟩, ⟨5, "Jenny May", 90000⟩]).remove_employee
        "Green Lee").employees.length := by
  constructor
  · decide
  · exact (C3_get_top_five_employees_sorted_stable.1 _).1

/-! ## C9: line counting -/

lemma countNL_append (a b : String) : countNL (a ++ b) = countNL a + countNL b := by
  simp [countNL, String.data_append, List.count_append]

lemma digitChar_ne_newline (n : Nat) : Nat.digitChar n ≠ '\n' := by
  rcases Nat.lt_or_ge n 16 with h16 | h16
  · interval_cases n <;> decide
  · simp only [Nat.digitChar]
    repeat rw [if_neg (by omega)]
    decide

lemma toDigitsCore_ne_newline (b : Nat) : ∀ (fuel n : Nat) (ds : List Char),
    (∀ c ∈ ds, c ≠ '\n') → ∀ c ∈ Nat.toDigitsCore b fuel n ds, c ≠ '\n'
  | 0, _, _, h => h
  | fuel+1, n, ds, h => by
    intro c hc
    simp only [Nat.toDigitsCore] at hc
    by_cases hz : n / b = 0
    · rw [if_pos hz] at hc
      rcases List.mem_cons.mp hc with rfl | hmem
      · exact digitChar_ne_newline _
      · exact h c hmem
    · rw [if_neg hz] at hc
      refine toDigitsCore_ne_newline b fuel (n / b) ((n % b).digitChar :: ds) ?_ c hc
      intro x hx
      rcases List.mem_cons.mp hx with rfl | hmem
      · exact digitChar_ne_newline _
      · exact h x hmem

lemma countNL_natRepr (n : Nat) : countNL (Nat.repr n) = 0 := by
  show (Nat.toDigits 10 n).count '\n' = 0
  refine List.count_eq_zero.mpr ?_
  intro hmem
  exact toDigitsCore_ne_newline 10 (n+1) n [] (by intro c hc; cases hc) '\n' hmem rfl

lemma countNL_intToString (i : Int) : countNL (toString i) = 0 := by
  cases i with
  | ofNat m => exact countNL_natRepr m
  | negSucc m =>
    show countNL ("-" ++ Nat.repr (m+1)) = 0
    rw [countNL_append, countNL_natRepr]
    rfl

lemma countNL_employee_display (e : Employee) (h : countNL e.__employee_name = 0) :
    countNL e.display = 0 := by
  show countNL ("ID: " ++ toString e.__employee_id ++ ", Name: " ++ e.__employee_name
    ++ ", Income: $" ++ toString e.__annual_income) = 0
  rw [countNL_append, countNL_append, countNL_append, countNL_append, countNL_append]
  rw [countNL_intToString, countNL_intToString, h]
  decide

lemma countNL_joinNL : ∀ l : List String, (∀ s ∈ l, countNL s = 0) →
    countNL (joinNL l) = l.length - 1
  | [], _ => rfl
  | [s], h => by
    show countNL s = 1 - 1
    simpa using h s (by simp)
  | s :: t :: rest, h => by
    have ih := countNL_joinNL (t :: rest) (fun x hx => h x (List.mem_cons_of_mem s hx))
    show countNL (s ++ "\n" ++ joinNL (t :: rest)) = (s :: t :: rest).length - 1
    rw [countNL_append, countNL_append, h s (by simp), ih]
    simp only [List.length_cons]
    have hone : countNL "\n" = 1 := rfl
    rw [hone]
    omega

lemma building_display_line_count (b : Building)
    (hne : b.__employees ≠ [])
    (hname : countNL b.__building_name = 0)
    (hemps : ∀ e ∈ b.__employees, countNL e.__employee_name = 0) :
    lineCount b.display = b.__employees.length + 2 := by
  show countNL ("Building Name: " ++ b.__building_name ++ ", Area: " ++ toString b.__area
    ++ ", Type: " ++ b.__building_type.name ++ "\nEmployees:\n"
    ++ joinNL (b.__employees.map Employee.display)) + 1 = b.__employees.length + 2
  simp only [countNL_append]
  rw [hname, countNL_intToString]
  have hjoin : countNL (joinNL (b.__employees.map Employee.display))
      = (b.__employees.map Employee.display).length - 1 := by
    refine countNL_joinNL _ ?_
    intro s hs
    obtain ⟨e, he, rfl⟩ := List.mem_map.mp hs
    exact countNL_employee_display e (hemps e he)
  rw [hjoin]
  have htype : countNL b.__building_type.name = 0 := by
    cases b.__building_type <;> rfl
  rw [htype]
  have h1 : countNL "Building Name: " = 0 := rfl
  have h2 : countNL ", Area: " = 0 := rfl
  have h3 : countNL ", Type: " = 0 := rfl
  have h4 : countNL "\nEmployees:\n" = 2 := rfl
  rw [h1, h2, h3, h4, List.length_map]
  have hlen : 0 < b.__employees.length := List.length_pos.mpr hne
  omega

lemma company_display_line_count (c : Company)
    (hne : c.__employees ≠ [])
    (hname : countNL c.__company_name = 0)
    (hemps : ∀ e ∈ c.__employees, countNL e.__employee_name = 0) :
    lineCount c.display = c.__employees.length + 2 := by
  show countNL ("Company Name: " ++ c.__company_name ++ "\nEmployees:\n"
    ++ joinNL (c.__employees.map Employee.display)) + 1 = c.__employees.length + 2
  simp only [countNL_append]
  rw [hname]
  have hjoin : countNL (joinNL (c.__employees.map Employee.display))
      = (c.__employees.map Employee.display).length - 1 := by
    refine countNL_joinNL _ ?_
    intro s hs
    obtain ⟨e, he, rfl⟩ := List.mem_map.mp hs
    exact countNL_employee_display e (hemps e he)
  rw [hjoin]
  have h1 : countNL "Company Name: " = 0 := rfl
  have h4 : countNL "\nEmployees:\n" = 2 := rfl
  rw [h1, h4, List.length_map]
  have hlen : 0 < c.__employees.length := List.length_pos.mpr hne
  omega

/-! ## C9 -/

/-- C9 counterexample: the claim says `display()` of an entity holding `n`
employees consists of exactly `n + 1` lines (one header line plus one line
per employee).  For a Building with one employee the display string is
`"Building Name: ..., Area: ..., Type: ...\nEmployees:\nID: ..."`, which has
two newline characters and hence three lines, not `1 + 1 = 2`: the label line
`Employees:` is a second header-side line the claim does not account for. -/
theorem C9_counterexample :
    lineCount (Building.display (Building.mk "Warehouse" 2500 .WAREHOUSE
        [⟨1, "Green Lee", 75000⟩])) = 3
    ∧ (Building.mk "Warehouse" 2500 .WAREHOUSE
        [⟨1, "Green Lee", 75000⟩]).__employees.length + 1 ≠ 3 := by
  constructor
  · decide
  · decide

/-- C9 (amended): for every Building or Company holding `n ≥ 1` employees,
provided the building/company name and the employee names contain no newline
character (so that each printed item is a single line), `display()` consists
of exactly `n + 2` lines: one metadata header line, one `Employees:` label
line, and one line per contained employee, in current list order. -/
theorem C9_display_line_count_amended :
    (∀ b : Building, b.__employees ≠ [] → countNL b.__building_name = 0 →
      (∀ e ∈ b.__employees, countNL e.__employee_name = 0) →
      lineCount b.display = b.__employees.length + 2)
    ∧ (∀ c : Company, c.__employees ≠ [] → countNL c.__company_name = 0 →
      (∀ e ∈ c.__employees, countNL e.__employee_name = 0) →
      lineCount c.display = c.__employees.length + 2) :=
  ⟨building_display_line_count, company_display_line_count⟩

/-- Witness for the amended C9 at a concrete building (2 employees, hence 4
lines) and company (1 employee, hence 3 lines). -/
theorem C9_witness :
    lineCount (Building.display (Building.mk "W" 1 .WAREHOUSE
        [⟨1, "A", 10⟩, ⟨2, "B", 20⟩])) = 2 + 2
    ∧ lineCount (Company.display (Company.mk "C" [⟨1, "A", 10⟩])) = 1 + 2 :=
  ⟨C9_display_line_count_amended.1 (Building.mk "W" 1 .WAREHOUSE
      [⟨1, "A", 10⟩, ⟨2, "B", 20⟩]) (by decide) (by decide) (by decide),
   C9_display_line_count_amended.2 (Company.mk "C" [⟨1, "A", 10⟩])
      (by decide) (by decide) (by decide)⟩
